import Mathlib

/-
Verification of the LSL-to-Bela audio bridge (src/render_lsl_audio.cpp and
src/render.cpp) against its specification.

Shallow embedding conventions:
* C `float`/`double` samples and rates are modelled as rationals; the core
  never performs arithmetic on samples (it only copies them), so the model
  is exact for every claim below.
* C `int` buffer indices are modelled as `Nat` where the code keeps them
  nonnegative (they are always masked into [0, 8192)), and the signed
  intermediate arithmetic of `samplesAvailable` and the fill-task space
  computation is modelled with `Int`, exactly as the source computes it.
* Channel counts are modelled as `Nat`; the source check `c <= 0` becomes
  `c = 0`.
* The external LSL transport is modelled by the data it hands the program:
  a list of advertised `StreamInfo` records for the resolver, and a
  `PullOutcome` (samples delivered, or an exception, loss or not) for the
  pull call.  `rt_printf` logging has no effect on program state and is
  dropped.
-/

namespace BelaLsl

/-- Configuration constant, render_lsl_audio.cpp line 10. -/
def AUDIO_STREAM_NAME : String := "audio"

/-- Configuration constant, render_lsl_audio.cpp line 11. -/
def AUDIO_BUFFER_FRAMES : Nat := 8192

/-- Configuration constant, render_lsl_audio.cpp line 12. -/
def MAX_CHANNELS : Nat := 8

/-- bufferMask = AUDIO_BUFFER_FRAMES - 1, render_lsl_audio.cpp line 35. -/
def bufferMask : Nat := AUDIO_BUFFER_FRAMES - 1

/-- The mutable globals of render_lsl_audio.cpp that the core reads and
writes: the active flag, the inlet pointer (modelled by whether it is
non-null), the session channel count and nominal rate, the two ring-buffer
indices, and the flat sample store `audioBuffer` (lines 16, 22-24, 28,
33-34).  The scratch `pullBuffer`/`timestampBuffer` are modelled by the
data the pull call returns. -/
structure LslState where
  audioStreamActive : Bool
  hasInlet : Bool
  audioChannels : Nat
  audioSampleRate : ℚ
  readPos : Nat
  writePos : Nat
  audioBuffer : Nat → ℚ

/-- Core of samplesAvailable, render_lsl_audio.cpp lines 48-50:
`int available = writePos - readPos; if (available < 0) available += AUDIO_BUFFER_FRAMES;`. -/
def availCount (writePos readPos : Nat) : Int :=
  let available : Int := (writePos : Int) - (readPos : Int)
  if available < 0 then available + (AUDIO_BUFFER_FRAMES : Int) else available

/-- samplesAvailable, render_lsl_audio.cpp lines 46-51; returns 0 when no
session is active. -/
def samplesAvailable (s : LslState) : Int :=
  if !s.audioStreamActive then 0
  else availCount s.writePos s.readPos

/-- samplesAvailable with an active session is the index distance. -/
theorem samplesAvailable_of_active (s : LslState) (h : s.audioStreamActive = true) :
    samplesAvailable s = availCount s.writePos s.readPos := by
  rw [samplesAvailable, h]
  rfl

/-- The fill-task space computation, render_lsl_audio.cpp lines 60-62:
`int available = readPosSnapshot - writePos - 1; if (available <= 0) available += AUDIO_BUFFER_FRAMES;`.
Note the `<= 0` in the source, faithfully kept here. -/
def fillWriteSpace (readPosSnapshot writePos : Nat) : Int :=
  let available : Int := (readPosSnapshot : Int) - (writePos : Int) - 1
  if available ≤ 0 then available + (AUDIO_BUFFER_FRAMES : Int) else available

/-- maxFramesToPull = min(512, available), render_lsl_audio.cpp line 65. -/
def fillMaxFrames (s : LslState) : Int :=
  min 512 (fillWriteSpace s.readPos s.writePos)

/-- Ring-buffer flat index used by the fill copy loop,
render_lsl_audio.cpp lines 81 and 86:
`(writePos & bufferMask) * audioChannels + ch`. -/
def ringBufferIndex (writePos audioChannels ch : Nat) : Nat :=
  (writePos &&& bufferMask) * audioChannels + ch

/-- Scratch-buffer flat index read by the fill copy loop,
render_lsl_audio.cpp lines 82 and 86: `f * audioChannels + ch`. -/
def pullBufferIndex (f audioChannels ch : Nat) : Nat :=
  f * audioChannels + ch

/-- The per-channel copy loop of one frame, render_lsl_audio.cpp lines
85-87: writes `src (pullIdx + ch)` to store index `bufferIndex + ch` for
each `ch < audioChannels`.  The recursion performs the writes of channels
0 .. audioChannels-1; all target indices are distinct so the order is
immaterial. -/
def copyFrameChans : Nat → Nat → Nat → (Nat → ℚ) → (Nat → ℚ) → (Nat → ℚ)
  | 0, _, _, _, buf => buf
  | ch + 1, bufferIndex, pullIdx, src, buf =>
      Function.update (copyFrameChans ch bufferIndex pullIdx src buf)
        (bufferIndex + ch) (src (pullIdx + ch))

/-- The frame copy loop of the fill task, render_lsl_audio.cpp lines
80-90: for `n` frames starting at scratch frame `f`, copy each frame to
the slot at the current write position and advance
`writePos = (writePos + 1) & bufferMask`.  Returns the final write
position and store. -/
def fillFrames (audioChannels : Nat) (data : Nat → ℚ) :
    Nat → Nat → Nat → (Nat → ℚ) → Nat × (Nat → ℚ)
  | 0, _, writePos, buf => (writePos, buf)
  | n + 1, f, writePos, buf =>
      let bufferIndex := (writePos &&& bufferMask) * audioChannels
      let pullIdx := f * audioChannels
      fillFrames audioChannels data n (f + 1) ((writePos + 1) &&& bufferMask)
        (copyFrameChans audioChannels bufferIndex pullIdx data buf)

/-- Behaviour of the external pull call `pull_chunk_multiplexed`
(render_lsl_audio.cpp lines 69-74): either it returns a number of samples
(the multiplexed data it wrote into the scratch buffer), or it throws an
exception, which may or may not be the transport loss condition. -/
inductive PullOutcome where
  | ok (samplesRead : Nat) (data : Nat → ℚ)
  | exn (isLoss : Bool)

/-- fillAudioBuffer, render_lsl_audio.cpp lines 54-102.  The entry guard
is line 55; the space computation lines 60-66; on a pull exception the
catch block (lines 98-101) logs and sets `audioStreamActive = false`;
otherwise framesPulled = samples_read / audioChannels frames are copied
into the ring buffer (lines 77-90). -/
def fillAudioBuffer (s : LslState) (pull : PullOutcome) : LslState :=
  if !s.audioStreamActive || !s.hasInlet
      || s.audioChannels == 0 || MAX_CHANNELS < s.audioChannels then s
  else
    let maxFramesToPull := fillMaxFrames s
    if maxFramesToPull ≤ 0 then s
    else
      match pull with
      | .exn _ => { s with audioStreamActive := false }
      | .ok samplesRead data =>
          let framesPulled := samplesRead / s.audioChannels
          let res := fillFrames s.audioChannels data framesPulled 0 s.writePos s.audioBuffer
          { s with writePos := res.1, audioBuffer := res.2 }

/-- One iteration of the per-sample-frame output loop of render,
render_lsl_audio.cpp lines 200-217.  Returns the list of
(channel, value) writes performed by audioWrite this tick together with
the successor state.  When a session is active and a frame is available,
channels 0 .. min(audioChannels, audioOutChannels)-1 receive the frame at
readPos and readPos advances; otherwise every output channel receives
silence. -/
def renderFrameTick (audioOutChannels : Nat) (s : LslState) :
    List (Nat × ℚ) × LslState :=
  if s.audioStreamActive ∧ 0 < samplesAvailable s then
    let bufferIndex := (s.readPos &&& bufferMask) * s.audioChannels
    ((List.range (min s.audioChannels audioOutChannels)).map
        (fun ch => (ch, s.audioBuffer (bufferIndex + ch))),
      { s with readPos := (s.readPos + 1) &&& bufferMask })
  else
    ((List.range audioOutChannels).map (fun ch => (ch, (0 : ℚ))), s)

/-- One push of the writer: the body of the fill copy loop
(render_lsl_audio.cpp lines 80-89) applied to a single frame given as a
list of channel samples. -/
def pushFrame (s : LslState) (frame : List ℚ) : LslState :=
  { s with
    audioBuffer := copyFrameChans s.audioChannels
      ((s.writePos &&& bufferMask) * s.audioChannels) 0
      (fun i => frame.getD i 0) s.audioBuffer,
    writePos := (s.writePos + 1) &&& bufferMask }

/-- Pushing a list of frames in order. -/
def pushFrames (s : LslState) (frames : List (List ℚ)) : LslState :=
  frames.foldl pushFrame s

/-- Popping `n` times via the render loop, collecting the values written
each tick (the per-tick audioWrite values, in channel order). -/
def renderPops (audioOutChannels : Nat) : Nat → LslState → List (List ℚ)
  | 0, _ => []
  | n + 1, s =>
      let t := renderFrameTick audioOutChannels s
      t.1.map Prod.snd :: renderPops audioOutChannels n t.2

theorem renderPops_succ (audioOutChannels n : Nat) (s : LslState) :
    renderPops audioOutChannels (n + 1) s =
      (renderFrameTick audioOutChannels s).1.map Prod.snd ::
        renderPops audioOutChannels n (renderFrameTick audioOutChannels s).2 := rfl

/-- The state immediately after a successful connection
(render_lsl_audio.cpp lines 138-146): inlet open, both ring indices reset
to zero, session active. -/
def activatedState (audioChannels : Nat) (srate : ℚ) (buf : Nat → ℚ) : LslState :=
  { audioStreamActive := true
    hasInlet := true
    audioChannels := audioChannels
    audioSampleRate := srate
    readPos := 0
    writePos := 0
    audioBuffer := buf }

/- Basic bridging lemmas. -/

/-- The bitmask on the power-of-two capacity is reduction modulo the
capacity (render_lsl_audio.cpp line 35 comment). -/
theorem and_bufferMask_eq_mod (x : Nat) :
    x &&& bufferMask = x % AUDIO_BUFFER_FRAMES := by
  have h1 : bufferMask = 2 ^ 13 - 1 := by norm_num [bufferMask, AUDIO_BUFFER_FRAMES]
  have h2 : AUDIO_BUFFER_FRAMES = 2 ^ 13 := by norm_num [AUDIO_BUFFER_FRAMES]
  rw [h1, h2, Nat.and_pow_two_sub_one_eq_mod]

theorem and_bufferMask_of_lt {x : Nat} (h : x < AUDIO_BUFFER_FRAMES) :
    x &&& bufferMask = x := by
  rw [and_bufferMask_eq_mod, Nat.mod_eq_of_lt h]

/-- Reading a channel just written by the per-channel copy loop. -/
theorem copyFrameChans_get_in (K : Nat) (bufferIndex pullIdx : Nat)
    (src buf : Nat → ℚ) (ch : Nat) (hch : ch < K) :
    copyFrameChans K bufferIndex pullIdx src buf (bufferIndex + ch) =
      src (pullIdx + ch) := by
  induction K with
  | zero => omega
  | succ k ih =>
    by_cases h : ch = k
    · subst h
      simp [copyFrameChans]
    · have hlt : ch < k := by omega
      simp only [copyFrameChans]
      rw [Function.update_noteq (by omega)]
      exact ih hlt

/-- Reading an index outside the range written by the per-channel copy
loop. -/
theorem copyFrameChans_get_out (K : Nat) (bufferIndex pullIdx : Nat)
    (src buf : Nat → ℚ) (j : Nat)
    (hj : ∀ ch, ch < K → j ≠ bufferIndex + ch) :
    copyFrameChans K bufferIndex pullIdx src buf j = buf j := by
  induction K with
  | zero => rfl
  | succ k ih =>
    simp only [copyFrameChans]
    rw [Function.update_noteq (hj k (by omega))]
    exact ih (fun ch hch => hj ch (by omega))

/-- Distinct frame slots give distinct flat indices. -/
theorem slot_index_ne {K a b ch ch' : Nat} (hch : ch < K) (hch' : ch' < K)
    (hab : a ≠ b) : a * K + ch ≠ b * K + ch' := by
  intro h
  rcases Nat.lt_or_ge a b with hlt | hge
  · have : a * K + ch < b * K + ch' := by
      calc a * K + ch < a * K + K := by omega
        _ = (a + 1) * K := by ring
        _ ≤ b * K := Nat.mul_le_mul_right K hlt
        _ ≤ b * K + ch' := by omega
    omega
  · have hba : b < a := by omega
    have : b * K + ch' < a * K + ch := by
      calc b * K + ch' < b * K + K := by omega
        _ = (b + 1) * K := by ring
        _ ≤ a * K := Nat.mul_le_mul_right K hba
        _ ≤ a * K + ch := by omega
    omega

/- Field lemmas for the writer and reader steps. -/

@[simp] theorem pushFrame_active (s : LslState) (fr : List ℚ) :
    (pushFrame s fr).audioStreamActive = s.audioStreamActive := rfl

@[simp] theorem pushFrame_hasInlet (s : LslState) (fr : List ℚ) :
    (pushFrame s fr).hasInlet = s.hasInlet := rfl

@[simp] theorem pushFrame_channels (s : LslState) (fr : List ℚ) :
    (pushFrame s fr).audioChannels = s.audioChannels := rfl

@[simp] theorem pushFrame_readPos (s : LslState) (fr : List ℚ) :
    (pushFrame s fr).readPos = s.readPos := rfl

@[simp] theorem pushFrame_writePos (s : LslState) (fr : List ℚ) :
    (pushFrame s fr).writePos = (s.writePos + 1) &&& bufferMask := rfl

/-- Pushing a list of frames advances the write index by the list length
modulo the capacity. -/
theorem pushFrames_writePos (frames : List (List ℚ)) :
    ∀ s : LslState, s.writePos < AUDIO_BUFFER_FRAMES →
      (pushFrames s frames).writePos =
        (s.writePos + frames.length) % AUDIO_BUFFER_FRAMES := by
  induction frames with
  | nil =>
    intro s hs
    simp [pushFrames, Nat.mod_eq_of_lt hs]
  | cons fr t ih =>
    intro s hs
    have hstep : (pushFrame s fr).writePos = (s.writePos + 1) % AUDIO_BUFFER_FRAMES := by
      rw [pushFrame_writePos, and_bufferMask_eq_mod]
    have hlt : (pushFrame s fr).writePos < AUDIO_BUFFER_FRAMES := by
      rw [hstep]; exact Nat.mod_lt _ (by norm_num [AUDIO_BUFFER_FRAMES])
    have := ih (pushFrame s fr) hlt
    rw [show pushFrames s (fr :: t) = pushFrames (pushFrame s fr) t from rfl, this,
      hstep, Nat.mod_add_mod]
    congr 1
    simp [List.length_cons]
    omega

theorem pushFrames_active (frames : List (List ℚ)) :
    ∀ s : LslState, (pushFrames s frames).audioStreamActive = s.audioStreamActive := by
  induction frames with
  | nil => intro s; rfl
  | cons fr t ih => intro s; exact ih (pushFrame s fr)

theorem pushFrames_readPos (frames : List (List ℚ)) :
    ∀ s : LslState, (pushFrames s frames).readPos = s.readPos := by
  induction frames with
  | nil => intro s; rfl
  | cons fr t ih => intro s; exact ih (pushFrame s fr)

theorem pushFrames_channels (frames : List (List ℚ)) :
    ∀ s : LslState, (pushFrames s frames).audioChannels = s.audioChannels := by
  induction frames with
  | nil => intro s; rfl
  | cons fr t ih => intro s; exact ih (pushFrame s fr)

/-- Indices not targeted by any of the pushed frames keep their store
value.  The bound keeps every written slot below the capacity so the
bitmask is the identity on it. -/
theorem pushFrames_untouched (frames : List (List ℚ)) :
    ∀ (s : LslState) (j : Nat), s.writePos + frames.length ≤ bufferMask →
      (∀ i, i < frames.length → ∀ ch, ch < s.audioChannels →
        j ≠ (s.writePos + i) * s.audioChannels + ch) →
      (pushFrames s frames).audioBuffer j = s.audioBuffer j := by
  induction frames with
  | nil => intro s j _ _; rfl
  | cons fr t ih =>
    intro s j hb hj
    have hw : s.writePos < AUDIO_BUFFER_FRAMES := by
      have : bufferMask < AUDIO_BUFFER_FRAMES := by
        norm_num [bufferMask, AUDIO_BUFFER_FRAMES]
      simp only [List.length_cons] at hb
      omega
    have hw1 : (pushFrame s fr).writePos = s.writePos + 1 := by
      rw [pushFrame_writePos, and_bufferMask_of_lt]
      have : bufferMask < AUDIO_BUFFER_FRAMES := by
        norm_num [bufferMask, AUDIO_BUFFER_FRAMES]
      simp only [List.length_cons] at hb
      omega
    have hstep : pushFrames s (fr :: t) = pushFrames (pushFrame s fr) t := rfl
    rw [hstep, ih (pushFrame s fr) j]
    · show copyFrameChans s.audioChannels
        ((s.writePos &&& bufferMask) * s.audioChannels) 0 _ s.audioBuffer j = _
      rw [and_bufferMask_of_lt hw]
      exact copyFrameChans_get_out _ _ _ _ _ _
        (fun ch hch => by
          have := hj 0 (by simp) ch hch
          simpa using this)
    · rw [hw1]
      simp only [List.length_cons] at hb
      omega
    · intro i hi ch hch
      rw [hw1, pushFrame_channels]
      have := hj (i + 1) (by simp only [List.length_cons]; omega) ch
        (by rwa [pushFrame_channels] at hch)
      rw [show s.writePos + (i + 1) = s.writePos + 1 + i from by omega] at this
      exact this

/-- After pushing `frames` from write position `w` (with no wraparound,
guaranteed by the bound), slot `w + i` holds frame `i` channel for
channel. -/
theorem pushFrames_get (frames : List (List ℚ)) :
    ∀ (s : LslState) (i ch : Nat) (hi : i < frames.length),
      ch < s.audioChannels → s.writePos + frames.length ≤ bufferMask →
      (pushFrames s frames).audioBuffer
          ((s.writePos + i) * s.audioChannels + ch) =
        (frames.get ⟨i, hi⟩).getD ch 0 := by
  induction frames with
  | nil => intro s i ch hi; simp at hi
  | cons fr t ih =>
    intro s i ch hi hch hb
    have hmask : bufferMask < AUDIO_BUFFER_FRAMES := by
      norm_num [bufferMask, AUDIO_BUFFER_FRAMES]
    have hw : s.writePos < AUDIO_BUFFER_FRAMES := by
      simp only [List.length_cons] at hb
      omega
    have hw1 : (pushFrame s fr).writePos = s.writePos + 1 := by
      rw [pushFrame_writePos, and_bufferMask_of_lt]
      simp only [List.length_cons] at hb
      omega
    have hstep : pushFrames s (fr :: t) = pushFrames (pushFrame s fr) t := rfl
    match i with
    | 0 =>
      rw [hstep, Nat.add_zero,
        pushFrames_untouched t (pushFrame s fr) _
          (by rw [hw1]; simp only [List.length_cons] at hb; omega)
          (by
            intro i' hi' ch' hch'
            rw [hw1, pushFrame_channels]
            rw [pushFrame_channels] at hch'
            exact slot_index_ne hch hch' (by omega))]
      show copyFrameChans s.audioChannels
        ((s.writePos &&& bufferMask) * s.audioChannels) 0 _ s.audioBuffer _ = _
      rw [and_bufferMask_of_lt hw]
      rw [copyFrameChans_get_in s.audioChannels _ 0 _ _ ch hch]
      simp [List.get]
    | i' + 1 =>
      rw [hstep]
      have hch' : ch < (pushFrame s fr).audioChannels := by
        rwa [pushFrame_channels]
      have hi' : i' < t.length := by
        simp only [List.length_cons] at hi
        omega
      have := ih (pushFrame s fr) i' ch hi' hch'
        (by rw [hw1]; simp only [List.length_cons] at hb; omega)
      rw [hw1, pushFrame_channels] at this
      rw [show s.writePos + (i' + 1) = s.writePos + 1 + i' from by omega, this]
      rfl

/-- A list of known length is recovered by reading its entries in order. -/
theorem map_range_getD (fr : List ℚ) :
    (List.range fr.length).map (fun ch => fr.getD ch 0) = fr := by
  induction fr with
  | nil => rfl
  | cons a t ih =>
    rw [List.length_cons, List.range_succ_eq_map, List.map_cons, List.map_map]
    simp only [Function.comp_def, List.getD_cons_zero, List.getD_cons_succ]
    rw [ih]

/-- renderPops pops an abstract queue: if the buffer slots starting at the
read position hold the frames of `q` in order (with no index wraparound)
and the write position sits `q.length` ahead, then `q.length` render
ticks emit exactly `q`. -/
theorem renderPops_drain (K outCh : Nat) (hout : K ≤ outCh) :
    ∀ (q : List (List ℚ)) (s : LslState) (r : Nat),
      s.audioStreamActive = true → s.audioChannels = K →
      s.readPos = r → s.writePos = r + q.length → r + q.length ≤ bufferMask →
      (∀ fr ∈ q, fr.length = K) →
      (∀ i (hi : i < q.length) ch, ch < K →
        s.audioBuffer ((r + i) * K + ch) = (q.get ⟨i, hi⟩).getD ch 0) →
      renderPops outCh q.length s = q := by
  intro q
  induction q with
  | nil => intro s r _ _ _ _ _ _ _; rfl
  | cons fr t ih =>
    intro s r hact hchan hr hw hb hlen hbuf
    have hmask : bufferMask < AUDIO_BUFFER_FRAMES := by
      norm_num [bufferMask, AUDIO_BUFFER_FRAMES]
    simp only [List.length_cons] at hw hb
    have hrlt : r < AUDIO_BUFFER_FRAMES := by omega
    have hav : samplesAvailable s = ((t.length : Int) + 1) := by
      rw [samplesAvailable, hact]
      simp only [Bool.not_true, Bool.false_eq_true, if_false]
      rw [availCount, hw, hr]
      push_cast
      rw [if_neg (by omega)]
      omega
    have hcond : s.audioStreamActive = true ∧ 0 < samplesAvailable s := by
      refine ⟨hact, ?_⟩
      rw [hav]
      positivity
    have htick : renderFrameTick outCh s =
        ((List.range K).map
            (fun ch => (ch, s.audioBuffer (r * K + ch))),
          { s with readPos := (r + 1) &&& bufferMask }) := by
      rw [renderFrameTick, if_pos hcond, hchan, hr, Nat.min_eq_left hout,
        and_bufferMask_of_lt hrlt]
    have hfrlen : fr.length = K := hlen fr (by simp)
    have hhead : ((renderFrameTick outCh s).1.map Prod.snd) = fr := by
      rw [htick]
      show List.map Prod.snd ((List.range K).map
        (fun ch => (ch, s.audioBuffer (r * K + ch)))) = fr
      rw [List.map_map]
      show (List.range K).map (fun ch => s.audioBuffer (r * K + ch)) = fr
      have h2 : (List.range K).map (fun ch => s.audioBuffer (r * K + ch)) =
          (List.range K).map (fun ch => fr.getD ch 0) := by
        refine List.map_congr_left ?_
        intro ch hch
        rw [List.mem_range] at hch
        have := hbuf 0 (by simp) ch hch
        simpa using this
      rw [h2, ← hfrlen]
      exact map_range_getD fr
    have hr1 : (r + 1) &&& bufferMask = r + 1 := and_bufferMask_of_lt (by omega)
    have htail : renderPops outCh t.length (renderFrameTick outCh s).2 = t := by
      rw [htick]
      show renderPops outCh t.length { s with readPos := (r + 1) &&& bufferMask } = t
      refine ih { s with readPos := (r + 1) &&& bufferMask } (r + 1) hact hchan
        (by simp [hr1]) ?_ (by omega) (fun g hg => hlen g (by simp [hg])) ?_
      · show s.writePos = r + 1 + t.length
        omega
      · intro i hi ch hch
        show s.audioBuffer ((r + 1 + i) * K + ch) = _
        have := hbuf (i + 1) (by simp only [List.length_cons]; omega) ch hch
        rw [show r + (i + 1) = r + 1 + i from by omega] at this
        simpa using this
    show (renderFrameTick outCh s).1.map Prod.snd ::
        renderPops outCh t.length (renderFrameTick outCh s).2 = fr :: t
    rw [hhead, htail]

/-- C3 (amended): pushing at most capacity - 1 frames into a freshly
activated buffer and then popping them all through the render loop
returns exactly the pushed frames, per channel.  (As stated, with up to
capacity frames, the claim fails: see the counterexample.) -/
theorem c3_roundtrip (K outCh : Nat) (frames : List (List ℚ))
    (buf : Nat → ℚ) (srate : ℚ)
    (hK0 : 0 < K) (hK8 : K ≤ MAX_CHANNELS) (hout : K ≤ outCh)
    (hlen : frames.length ≤ AUDIO_BUFFER_FRAMES - 1)
    (hfr : ∀ fr ∈ frames, fr.length = K) :
    renderPops outCh frames.length
        (pushFrames (activatedState K srate buf) frames) = frames := by
  have hact : (pushFrames (activatedState K srate buf) frames).audioStreamActive = true := by
    rw [pushFrames_active]; rfl
  have hchan : (pushFrames (activatedState K srate buf) frames).audioChannels = K := by
    rw [pushFrames_channels]; rfl
  have hread : (pushFrames (activatedState K srate buf) frames).readPos = 0 := by
    rw [pushFrames_readPos]; rfl
  have hlt : frames.length < AUDIO_BUFFER_FRAMES := by
    have : 0 < AUDIO_BUFFER_FRAMES := by norm_num [AUDIO_BUFFER_FRAMES]
    omega
  have hwrite : (pushFrames (activatedState K srate buf) frames).writePos =
      0 + frames.length := by
    rw [pushFrames_writePos frames _ (by norm_num [activatedState, AUDIO_BUFFER_FRAMES])]
    show ((activatedState K srate buf).writePos + frames.length) % AUDIO_BUFFER_FRAMES = _
    have h0 : (activatedState K srate buf).writePos = 0 := rfl
    rw [h0]
    exact Nat.mod_eq_of_lt (by omega)
  refine renderPops_drain K outCh hout frames _ 0 hact hchan hread hwrite
    (by show 0 + frames.length ≤ AUDIO_BUFFER_FRAMES - 1; omega) hfr ?_
  intro i hi ch hch
  have := pushFrames_get frames (activatedState K srate buf) i ch hi
    (by show ch < K; exact hch)
    (by show (activatedState K srate buf).writePos + frames.length ≤ AUDIO_BUFFER_FRAMES - 1
        have h0 : (activatedState K srate buf).writePos = 0 := rfl
        omega)
  have h0 : (activatedState K srate buf).writePos = 0 := rfl
  rw [h0, Nat.zero_add] at this
  have hch2 : (activatedState K srate buf).audioChannels = K := rfl
  rw [hch2] at this
  rw [show (0 : Nat) + i = i from by omega]
  exact this

/-- Witness for c3_roundtrip at three one-channel frames. -/
theorem c3_roundtrip_witness :
    renderPops 2 3 (pushFrames (activatedState 1 44100 (fun _ => 0))
      [[(1 : ℚ)], [2], [3]]) = [[(1 : ℚ)], [2], [3]] :=
  c3_roundtrip 1 2 [[(1 : ℚ)], [2], [3]] (fun _ => 0) 44100
    (by norm_num) (by norm_num [MAX_CHANNELS]) (by norm_num)
    (by norm_num [AUDIO_BUFFER_FRAMES])
    (by intro fr hfr; fin_cases hfr <;> rfl)

/-- C3 counterexample: with exactly capacity frames (n = capacity - 1, a
value the claim bound n < capacity admits), pushing wraps the write
index back onto the read index, the buffer reads back as empty, and the
first pop already yields silence rather than the pushed frame. -/
theorem c3_counterexample :
    ¬ (renderPops 1 ([(1 : ℚ)] :: List.replicate 8191 [(1 : ℚ)]).length
        (pushFrames (activatedState 1 44100 (fun _ => 0))
          ([(1 : ℚ)] :: List.replicate 8191 [(1 : ℚ)]))
      = [(1 : ℚ)] :: List.replicate 8191 [(1 : ℚ)]) := by
  intro h
  have hlen : ([(1 : ℚ)] :: List.replicate 8191 [(1 : ℚ)]).length =
      AUDIO_BUFFER_FRAMES := by
    rw [List.length_cons, List.length_replicate]
    decide
  have hw : (pushFrames (activatedState 1 44100 (fun _ => 0))
      ([(1 : ℚ)] :: List.replicate 8191 [(1 : ℚ)])).writePos = 0 := by
    rw [pushFrames_writePos _ _ (by norm_num [activatedState, AUDIO_BUFFER_FRAMES]), hlen]
    show ((activatedState 1 44100 (fun _ => 0)).writePos + AUDIO_BUFFER_FRAMES)
        % AUDIO_BUFFER_FRAMES = 0
    have h0 : (activatedState 1 44100 (fun _ => 0)).writePos = 0 := rfl
    rw [h0, Nat.zero_add, Nat.mod_self]
  have hr : (pushFrames (activatedState 1 44100 (fun _ => 0))
      ([(1 : ℚ)] :: List.replicate 8191 [(1 : ℚ)])).readPos = 0 := by
    rw [pushFrames_readPos]; rfl
  have ha : (pushFrames (activatedState 1 44100 (fun _ => 0))
      ([(1 : ℚ)] :: List.replicate 8191 [(1 : ℚ)])).audioStreamActive = true := by
    rw [pushFrames_active]; rfl
  have hav : samplesAvailable (pushFrames (activatedState 1 44100 (fun _ => 0))
      ([(1 : ℚ)] :: List.replicate 8191 [(1 : ℚ)])) = 0 := by
    rw [samplesAvailable_of_active _ ha, hw, hr]
    decide
  have htick : (renderFrameTick 1 (pushFrames (activatedState 1 44100 (fun _ => 0))
      ([(1 : ℚ)] :: List.replicate 8191 [(1 : ℚ)]))).1 =
      (List.range 1).map (fun ch => (ch, (0 : ℚ))) := by
    rw [renderFrameTick, if_neg]
    intro hc
    rw [hav] at hc
    exact absurd hc.2 (by norm_num)
  conv at h =>
    lhs
    rw [show ([(1 : ℚ)] :: List.replicate 8191 [(1 : ℚ)]).length = 8191 + 1 from
      by rw [List.length_cons, List.length_replicate]]
  rw [renderPops_succ] at h
  injection h with hhead htail
  rw [htick] at hhead
  have hz : ((List.range 1).map (fun ch => (ch, (0 : ℚ)))).map Prod.snd = [(0 : ℚ)] := rfl
  rw [hz] at hhead
  injection hhead with hv
  norm_num at hv


/-- Advance of the write index by one push,
render_lsl_audio.cpp line 89. -/
def pushAdvance (w : Nat) : Nat := (w + 1) &&& bufferMask

/-- Advance of the read index by one pop,
render_lsl_audio.cpp line 211. -/
def popAdvance (r : Nat) : Nat := (r + 1) &&& bufferMask

/-- Index pairs (writePos, readPos) reachable from the reset state by
sequentially interleaving fill invocations (each invocation pushes k
frames with k at most min(512, computed write space), lines 60-90; the
pull may deliver fewer frames than requested) and render pops (only
taken when a frame is available, lines 201-211). -/
inductive ReachableBuf : Nat → Nat → Prop where
  | init : ReachableBuf 0 0
  | fill (w r k : Nat) : ReachableBuf w r →
      (k : Int) ≤ min 512 (fillWriteSpace r w) →
      ReachableBuf (pushAdvance^[k] w) r
  | drain (w r : Nat) : ReachableBuf w r →
      0 < availCount w r →
      ReachableBuf w (popAdvance r)

/-- Iterating the masked increment is addition modulo the capacity. -/
theorem pushAdvance_iterate (k : Nat) :
    ∀ w, w < AUDIO_BUFFER_FRAMES →
      pushAdvance^[k] w = (w + k) % AUDIO_BUFFER_FRAMES := by
  induction k with
  | zero =>
    intro w hw
    simp [Nat.mod_eq_of_lt hw]
  | succ n ih =>
    intro w hw
    rw [Function.iterate_succ_apply]
    have h1 : pushAdvance w = (w + 1) % AUDIO_BUFFER_FRAMES := by
      rw [pushAdvance, and_bufferMask_eq_mod]
    rw [h1, ih _ (Nat.mod_lt _ (by norm_num [AUDIO_BUFFER_FRAMES])), Nat.mod_add_mod]
    congr 1
    omega

theorem reach_fill {w r : Nat} (k w' : Nat) (hw : w < AUDIO_BUFFER_FRAMES)
    (h : ReachableBuf w r) (hk : (k : Int) ≤ min 512 (fillWriteSpace r w))
    (hw' : (w + k) % AUDIO_BUFFER_FRAMES = w') : ReachableBuf w' r := by
  have h2 := ReachableBuf.fill w r k h hk
  rwa [pushAdvance_iterate k w hw, hw'] at h2

theorem reach_drain {w r : Nat} (r' : Nat) (h : ReachableBuf w r)
    (hav : 0 < availCount w r) (hr' : popAdvance r = r') : ReachableBuf w r' := by
  subst hr'
  exact ReachableBuf.drain w r h hav

/-- The full state writePos = 0, readPos = 1 is reachable: push one
frame, pop it, then push 8191 frames in sixteen fill invocations
(fifteen of 512 frames and one of 511). -/
theorem reach_0_1 : ReachableBuf 0 1 := by
  have h0 : ReachableBuf 0 0 := ReachableBuf.init
  have h1 : ReachableBuf 1 0 := reach_fill 1 1 (by decide) h0 (by decide) (by decide)
  have h2 : ReachableBuf 1 1 := reach_drain 1 h1 (by decide) (by decide)
  have hf0 : ReachableBuf 513 1 := reach_fill 512 513 (by decide) h2 (by decide) (by decide)
  have hf1 : ReachableBuf 1025 1 := reach_fill 512 1025 (by decide) hf0 (by decide) (by decide)
  have hf2 : ReachableBuf 1537 1 := reach_fill 512 1537 (by decide) hf1 (by decide) (by decide)
  have hf3 : ReachableBuf 2049 1 := reach_fill 512 2049 (by decide) hf2 (by decide) (by decide)
  have hf4 : ReachableBuf 2561 1 := reach_fill 512 2561 (by decide) hf3 (by decide) (by decide)
  have hf5 : ReachableBuf 3073 1 := reach_fill 512 3073 (by decide) hf4 (by decide) (by decide)
  have hf6 : ReachableBuf 3585 1 := reach_fill 512 3585 (by decide) hf5 (by decide) (by decide)
  have hf7 : ReachableBuf 4097 1 := reach_fill 512 4097 (by decide) hf6 (by decide) (by decide)
  have hf8 : ReachableBuf 4609 1 := reach_fill 512 4609 (by decide) hf7 (by decide) (by decide)
  have hf9 : ReachableBuf 5121 1 := reach_fill 512 5121 (by decide) hf8 (by decide) (by decide)
  have hf10 : ReachableBuf 5633 1 := reach_fill 512 5633 (by decide) hf9 (by decide) (by decide)
  have hf11 : ReachableBuf 6145 1 := reach_fill 512 6145 (by decide) hf10 (by decide) (by decide)
  have hf12 : ReachableBuf 6657 1 := reach_fill 512 6657 (by decide) hf11 (by decide) (by decide)
  have hf13 : ReachableBuf 7169 1 := reach_fill 512 7169 (by decide) hf12 (by decide) (by decide)
  have hf14 : ReachableBuf 7681 1 := reach_fill 512 7681 (by decide) hf13 (by decide) (by decide)
  exact reach_fill 511 0 (by decide) hf14 (by decide) (by decide)
/-- C1 is violated by the code: at the reachable full state
writePos = 0, readPos = 1 (which satisfies
(writePos + 1) mod capacity = readPos), the fill task computes a write
space of 8192 (because line 62 uses `<= 0` instead of `< 0`), while
availableFrames() is 8191, so their sum is 16383, not capacity - 1. -/
theorem c1_slack_violation :
    ReachableBuf 0 1
    ∧ samplesAvailable
        { audioStreamActive := true, hasInlet := true, audioChannels := 1,
          audioSampleRate := 44100, readPos := 1, writePos := 0,
          audioBuffer := fun _ => 0 } = 8191
    ∧ fillWriteSpace 1 0 = 8192
    ∧ fillWriteSpace 1 0 + samplesAvailable
        { audioStreamActive := true, hasInlet := true, audioChannels := 1,
          audioSampleRate := 44100, readPos := 1, writePos := 0,
          audioBuffer := fun _ => 0 } ≠ (AUDIO_BUFFER_FRAMES : Int) - 1 :=
  ⟨reach_0_1, by decide, by decide, by decide⟩

/-- C2 is violated by the code: at the reachable full state
writePos = 0, readPos = 1 the buffer holds capacity - 1 unread frames,
yet the fill-task check computes maxFramesToPull = 512 instead of
rejecting the push, and pushing a single frame advances writePos onto
readPos, after which availableFrames() collapses from 8191 to 0 (the
unread frames are silently lost). -/
theorem c2_overwrite_admitted :
    ReachableBuf 0 1
    ∧ availCount 0 1 = (AUDIO_BUFFER_FRAMES : Int) - 1
    ∧ fillMaxFrames
        { audioStreamActive := true, hasInlet := true, audioChannels := 1,
          audioSampleRate := 44100, readPos := 1, writePos := 0,
          audioBuffer := fun _ => 0 } = 512
    ∧ (fillAudioBuffer
        { audioStreamActive := true, hasInlet := true, audioChannels := 1,
          audioSampleRate := 44100, readPos := 1, writePos := 0,
          audioBuffer := fun _ => 0 } (.ok 1 (fun _ => 7))).writePos = 1
    ∧ (fillAudioBuffer
        { audioStreamActive := true, hasInlet := true, audioChannels := 1,
          audioSampleRate := 44100, readPos := 1, writePos := 0,
          audioBuffer := fun _ => 0 } (.ok 1 (fun _ => 7))).readPos = 1
    ∧ samplesAvailable (fillAudioBuffer
        { audioStreamActive := true, hasInlet := true, audioChannels := 1,
          audioSampleRate := 44100, readPos := 1, writePos := 0,
          audioBuffer := fun _ => 0 } (.ok 1 (fun _ => 7))) = 0 :=
  ⟨reach_0_1, by decide, by decide, by decide, by decide, by decide⟩


/-- One buffer operation under the single-writer/single-reader
discipline: a writer push (the fill copy-loop body, lines 80-89) or a
reader pop (a render tick, lines 200-217). -/
inductive BufOp where
  | push (frame : List ℚ)
  | pop

/-- Applying a sequence of buffer operations in order. -/
def applyOps (audioOutChannels : Nat) : LslState → List BufOp → LslState
  | s, [] => s
  | s, .push fr :: rest => applyOps audioOutChannels (pushFrame s fr) rest
  | s, .pop :: rest =>
      applyOps audioOutChannels ((renderFrameTick audioOutChannels s).2) rest

/-- The discipline the program follows: the reader pops only when
availableFrames() is positive (render_lsl_audio.cpp line 201 guards the
pop with `samplesAvailable() > 0`). -/
def validSeq (audioOutChannels : Nat) : LslState → List BufOp → Bool
  | _, [] => true
  | s, .push fr :: rest => validSeq audioOutChannels (pushFrame s fr) rest
  | s, .pop :: rest =>
      decide (0 < samplesAvailable s)
        && validSeq audioOutChannels ((renderFrameTick audioOutChannels s).2) rest

def countPush : List BufOp → Nat
  | [] => 0
  | .push _ :: rest => countPush rest + 1
  | .pop :: rest => countPush rest

def countPop : List BufOp → Nat
  | [] => 0
  | .push _ :: rest => countPop rest
  | .pop :: rest => countPop rest + 1

/-- A positive frame count implies the session is active (inactive
sessions report zero). -/
theorem samplesAvailable_pos_active (s : LslState)
    (h : 0 < samplesAvailable s) : s.audioStreamActive = true := by
  cases hact : s.audioStreamActive with
  | false =>
    rw [samplesAvailable, hact] at h
    simp at h
  | true => rfl

/-- The state after a render tick that pops a frame. -/
theorem renderFrameTick_snd_of_avail (audioOutChannels : Nat) (s : LslState)
    (h : 0 < samplesAvailable s) :
    (renderFrameTick audioOutChannels s).2 =
      { s with readPos := (s.readPos + 1) &&& bufferMask } := by
  rw [renderFrameTick, if_pos ⟨samplesAvailable_pos_active s h, h⟩]

/-- Along a valid operation sequence the indices advance by exactly the
operation counts, modulo the capacity, and the active flag is
untouched. -/
theorem applyOps_fields (audioOutChannels : Nat) (ops : List BufOp) :
    ∀ s : LslState, validSeq audioOutChannels s ops = true →
      s.writePos < AUDIO_BUFFER_FRAMES → s.readPos < AUDIO_BUFFER_FRAMES →
      (applyOps audioOutChannels s ops).audioStreamActive = s.audioStreamActive
      ∧ (applyOps audioOutChannels s ops).writePos =
          (s.writePos + countPush ops) % AUDIO_BUFFER_FRAMES
      ∧ (applyOps audioOutChannels s ops).readPos =
          (s.readPos + countPop ops) % AUDIO_BUFFER_FRAMES := by
  induction ops with
  | nil =>
    intro s _ hw hr
    refine ⟨rfl, ?_, ?_⟩
    · show s.writePos = (s.writePos + 0) % AUDIO_BUFFER_FRAMES
      rw [Nat.add_zero, Nat.mod_eq_of_lt hw]
    · show s.readPos = (s.readPos + 0) % AUDIO_BUFFER_FRAMES
      rw [Nat.add_zero, Nat.mod_eq_of_lt hr]
  | cons op rest ih =>
    intro s hv hw hr
    have hApos : 0 < AUDIO_BUFFER_FRAMES := by norm_num [AUDIO_BUFFER_FRAMES]
    match op with
    | .push fr =>
      have hv' : validSeq audioOutChannels (pushFrame s fr) rest = true := hv
      have hw1 : (pushFrame s fr).writePos = (s.writePos + 1) % AUDIO_BUFFER_FRAMES := by
        rw [pushFrame_writePos, and_bufferMask_eq_mod]
      obtain ⟨ha, hww, hrr⟩ := ih (pushFrame s fr) hv'
        (by rw [hw1]; exact Nat.mod_lt _ hApos)
        (by rw [pushFrame_readPos]; exact hr)
      refine ⟨ha, ?_, ?_⟩
      · show (applyOps audioOutChannels (pushFrame s fr) rest).writePos = _
        rw [hww, hw1, Nat.mod_add_mod]
        show (s.writePos + 1 + countPush rest) % AUDIO_BUFFER_FRAMES =
          (s.writePos + countPush (BufOp.push fr :: rest)) % AUDIO_BUFFER_FRAMES
        congr 1
        show s.writePos + 1 + countPush rest = s.writePos + (countPush rest + 1)
        omega
      · show (applyOps audioOutChannels (pushFrame s fr) rest).readPos = _
        rw [hrr, pushFrame_readPos]
        rfl
    | .pop =>
      have hv2 : (decide (0 < samplesAvailable s)
          && validSeq audioOutChannels ((renderFrameTick audioOutChannels s).2) rest)
          = true := hv
      rw [Bool.and_eq_true] at hv2
      have hpos : 0 < samplesAvailable s := of_decide_eq_true hv2.1
      have htick := renderFrameTick_snd_of_avail audioOutChannels s hpos
      have hw1 : ((renderFrameTick audioOutChannels s).2).writePos = s.writePos := by
        rw [htick]
      have hr1 : ((renderFrameTick audioOutChannels s).2).readPos =
          (s.readPos + 1) % AUDIO_BUFFER_FRAMES := by
        rw [htick]
        show (s.readPos + 1) &&& bufferMask = _
        rw [and_bufferMask_eq_mod]
      have ha1 : ((renderFrameTick audioOutChannels s).2).audioStreamActive =
          s.audioStreamActive := by
        rw [htick]
      obtain ⟨ha, hww, hrr⟩ := ih ((renderFrameTick audioOutChannels s).2) hv2.2
        (by rw [hw1]; exact hw)
        (by rw [hr1]; exact Nat.mod_lt _ hApos)
      refine ⟨?_, ?_, ?_⟩
      · show (applyOps audioOutChannels
            ((renderFrameTick audioOutChannels s).2) rest).audioStreamActive =
          s.audioStreamActive
        rw [ha, ha1]
      · show (applyOps audioOutChannels ((renderFrameTick audioOutChannels s).2) rest).writePos = _
        rw [hww, hw1]
        rfl
      · show (applyOps audioOutChannels ((renderFrameTick audioOutChannels s).2) rest).readPos = _
        rw [hrr, hr1, Nat.mod_add_mod]
        show (s.readPos + 1 + countPop rest) % AUDIO_BUFFER_FRAMES =
          (s.readPos + countPop (BufOp.pop :: rest)) % AUDIO_BUFFER_FRAMES
        congr 1
        show s.readPos + 1 + countPop rest = s.readPos + (countPop rest + 1)
        omega

/-- The signed fixup of samplesAvailable recovers the exact push/pop
difference whenever it fits below the capacity. -/
theorem availCount_mod (P Q : Nat) (h1 : Q ≤ P)
    (h2 : P - Q < AUDIO_BUFFER_FRAMES) :
    availCount (P % AUDIO_BUFFER_FRAMES) (Q % AUDIO_BUFFER_FRAMES) =
      (P : Int) - (Q : Int) := by
  unfold availCount
  simp only [AUDIO_BUFFER_FRAMES] at h2 ⊢
  split_ifs with hc <;> omega

/-- C4: for every valid operation sequence with w pushes and r pops,
r ≤ w and w - r < capacity, availableFrames() afterwards is w - r; and
with no active session availableFrames() is 0 regardless of the
indices. -/
theorem c4_available_count (audioOutChannels K : Nat) (srate : ℚ)
    (buf : Nat → ℚ) (ops : List BufOp) (t : LslState)
    (hv : validSeq audioOutChannels (activatedState K srate buf) ops = true)
    (hc1 : countPop ops ≤ countPush ops)
    (hc2 : countPush ops - countPop ops < AUDIO_BUFFER_FRAMES)
    (ht : t.audioStreamActive = false) :
    samplesAvailable (applyOps audioOutChannels (activatedState K srate buf) ops)
        = (countPush ops : Int) - (countPop ops : Int)
    ∧ samplesAvailable t = 0 := by
  constructor
  · obtain ⟨hact, hww, hrr⟩ := applyOps_fields audioOutChannels ops
      (activatedState K srate buf) hv
      (by show (0 : Nat) < AUDIO_BUFFER_FRAMES; norm_num [AUDIO_BUFFER_FRAMES])
      (by show (0 : Nat) < AUDIO_BUFFER_FRAMES; norm_num [AUDIO_BUFFER_FRAMES])
    rw [samplesAvailable_of_active _ (by rw [hact]; rfl), hww, hrr]
    have h0w : (activatedState K srate buf).writePos = 0 := rfl
    have h0r : (activatedState K srate buf).readPos = 0 := rfl
    rw [h0w, h0r, Nat.zero_add, Nat.zero_add]
    exact availCount_mod _ _ hc1 hc2
  · rw [samplesAvailable, ht]
    rfl

/-- Witness for c4_available_count: two pushes and one pop leave one
frame available; an inactive state reports zero. -/
theorem c4_available_count_witness :
    validSeq 1 (activatedState 1 44100 (fun _ => 0))
        [BufOp.push [5], BufOp.push [6], BufOp.pop] = true
    ∧ samplesAvailable (applyOps 1 (activatedState 1 44100 (fun _ => 0))
        [BufOp.push [5], BufOp.push [6], BufOp.pop]) = 1
    ∧ samplesAvailable
        { audioStreamActive := false, hasInlet := true, audioChannels := 1,
          audioSampleRate := 44100, readPos := 3, writePos := 7,
          audioBuffer := fun _ => 0 } = 0 := by
  have h := c4_available_count 1 1 44100 (fun _ => 0)
    [BufOp.push [5], BufOp.push [6], BufOp.pop]
    { audioStreamActive := false, hasInlet := true, audioChannels := 1,
      audioSampleRate := 44100, readPos := 3, writePos := 7,
      audioBuffer := fun _ => 0 }
    (by decide) (by decide) (by decide) rfl
  exact ⟨by decide, h.1, h.2⟩


/-- On any pull exception (loss or not) fillAudioBuffer reduces to
deactivating the session: the guard passes, the space check passes, and
the catch block (lines 98-101) runs. -/
theorem fillAudioBuffer_exn (s : LslState) (b : Bool)
    (hact : s.audioStreamActive = true) (hinlet : s.hasInlet = true)
    (hK0 : 0 < s.audioChannels) (hK8 : s.audioChannels ≤ MAX_CHANNELS)
    (hspace : 0 < fillMaxFrames s) :
    fillAudioBuffer s (.exn b) = { s with audioStreamActive := false } := by
  have hguard : (!s.audioStreamActive || !s.hasInlet
      || s.audioChannels == 0 || decide (MAX_CHANNELS < s.audioChannels)) = false := by
    rw [hact, hinlet]
    simp only [Bool.not_true, Bool.or_false, Bool.false_or]
    rw [Bool.or_eq_false_iff]
    exact ⟨by simp [Nat.pos_iff_ne_zero.mp hK0], decide_eq_false (by omega)⟩
  rw [fillAudioBuffer, if_neg (by rw [hguard]; exact Bool.false_ne_true)]
  show (if fillMaxFrames s ≤ 0 then s else _) = _
  rw [if_neg (by omega)]

/-- C5 counterexample: in a guard-passing state with free space, a
non-loss exception from the pull does not leave the session active; the
catch block deactivates it just as for a loss. -/
theorem c5_counterexample :
    ¬ ((fillAudioBuffer
        { audioStreamActive := true, hasInlet := true, audioChannels := 1,
          audioSampleRate := 44100, readPos := 0, writePos := 0,
          audioBuffer := fun _ => 0 } (.exn false)).audioStreamActive = true) := by
  decide

/-- C5 (amended): any exception raised by the pull call - loss or not -
aborts the current fill invocation with the ring buffer and both indices
untouched, is not propagated (the handler absorbs it), and deactivates
the session (audioStreamActive becomes false), so the next discovery
pass has to reconnect; the session is not left active. -/
theorem c5_pull_exception (s : LslState) (b : Bool)
    (hact : s.audioStreamActive = true) (hinlet : s.hasInlet = true)
    (hK0 : 0 < s.audioChannels) (hK8 : s.audioChannels ≤ MAX_CHANNELS)
    (hspace : 0 < fillMaxFrames s) :
    (fillAudioBuffer s (.exn b)).audioStreamActive = false
    ∧ (fillAudioBuffer s (.exn b)).writePos = s.writePos
    ∧ (fillAudioBuffer s (.exn b)).readPos = s.readPos
    ∧ (fillAudioBuffer s (.exn b)).audioBuffer = s.audioBuffer
    ∧ (fillAudioBuffer s (.exn b)).hasInlet = s.hasInlet := by
  rw [fillAudioBuffer_exn s b hact hinlet hK0 hK8 hspace]
  exact ⟨rfl, rfl, rfl, rfl, rfl⟩

/-- Witness for c5_pull_exception at a concrete state with a non-loss
exception. -/
theorem c5_pull_exception_witness :
    (fillAudioBuffer
        { audioStreamActive := true, hasInlet := true, audioChannels := 2,
          audioSampleRate := 48000, readPos := 4, writePos := 9,
          audioBuffer := fun _ => 3 } (.exn false)).audioStreamActive = false
    ∧ (fillAudioBuffer
        { audioStreamActive := true, hasInlet := true, audioChannels := 2,
          audioSampleRate := 48000, readPos := 4, writePos := 9,
          audioBuffer := fun _ => 3 } (.exn false)).writePos = 9
    ∧ (fillAudioBuffer
        { audioStreamActive := true, hasInlet := true, audioChannels := 2,
          audioSampleRate := 48000, readPos := 4, writePos := 9,
          audioBuffer := fun _ => 3 } (.exn false)).readPos = 4 := by
  have h := c5_pull_exception
    { audioStreamActive := true, hasInlet := true, audioChannels := 2,
      audioSampleRate := 48000, readPos := 4, writePos := 9,
      audioBuffer := fun _ => 3 } false rfl rfl (by decide) (by decide) (by decide)
  exact ⟨h.1, h.2.1, h.2.2.1⟩

/-- C6 counterexample: a state with three buffered frames suffers a pull
loss; availableFrames() immediately reports 0 and the very next render
tick outputs silence without advancing readPos, even though
writePos ≠ readPos still holds (the three frames sit unread): nothing is
drained before silence resumes. -/
theorem c6_counterexample :
    samplesAvailable
        { audioStreamActive := true, hasInlet := true, audioChannels := 1,
          audioSampleRate := 44100, readPos := 0, writePos := 3,
          audioBuffer := fun j => if j < 3 then 5 else 0 } = 3
    ∧ (fillAudioBuffer
        { audioStreamActive := true, hasInlet := true, audioChannels := 1,
          audioSampleRate := 44100, readPos := 0, writePos := 3,
          audioBuffer := fun j => if j < 3 then 5 else 0 } (.exn true)).writePos = 3
    ∧ (fillAudioBuffer
        { audioStreamActive := true, hasInlet := true, audioChannels := 1,
          audioSampleRate := 44100, readPos := 0, writePos := 3,
          audioBuffer := fun j => if j < 3 then 5 else 0 } (.exn true)).readPos = 0
    ∧ samplesAvailable (fillAudioBuffer
        { audioStreamActive := true, hasInlet := true, audioChannels := 1,
          audioSampleRate := 44100, readPos := 0, writePos := 3,
          audioBuffer := fun j => if j < 3 then 5 else 0 } (.exn true)) = 0
    ∧ (renderFrameTick 1 (fillAudioBuffer
        { audioStreamActive := true, hasInlet := true, audioChannels := 1,
          audioSampleRate := 44100, readPos := 0, writePos := 3,
          audioBuffer := fun j => if j < 3 then 5 else 0 } (.exn true))).1
        = [(0, (0 : ℚ))]
    ∧ (renderFrameTick 1 (fillAudioBuffer
        { audioStreamActive := true, hasInlet := true, audioChannels := 1,
          audioSampleRate := 44100, readPos := 0, writePos := 3,
          audioBuffer := fun j => if j < 3 then 5 else 0 } (.exn true))).2.readPos
        = 0
    ∧ ¬ ((renderFrameTick 1 (fillAudioBuffer
        { audioStreamActive := true, hasInlet := true, audioChannels := 1,
          audioSampleRate := 44100, readPos := 0, writePos := 3,
          audioBuffer := fun j => if j < 3 then 5 else 0 } (.exn true))).1
        = [(0, (5 : ℚ))]) := by
  refine ⟨by decide, by decide, by decide, by decide, by decide, by decide, by decide⟩

/-- C6 (amended): once a pull failure deactivates the session, buffered
frames are not drained: availableFrames() reports 0 immediately, every
subsequent render tick writes silence to all output channels, and the
read index never advances; the buffered frames stay in place (discarded
only by the reset of the next successful connection). -/
theorem c6_lost_no_drain (s : LslState) (audioOutChannels : Nat) (b : Bool)
    (hact : s.audioStreamActive = true) (hinlet : s.hasInlet = true)
    (hK0 : 0 < s.audioChannels) (hK8 : s.audioChannels ≤ MAX_CHANNELS)
    (hspace : 0 < fillMaxFrames s) :
    (fillAudioBuffer s (.exn b)).audioStreamActive = false
    ∧ samplesAvailable (fillAudioBuffer s (.exn b)) = 0
    ∧ (renderFrameTick audioOutChannels (fillAudioBuffer s (.exn b))).1 =
        (List.range audioOutChannels).map (fun ch => (ch, (0 : ℚ)))
    ∧ (renderFrameTick audioOutChannels (fillAudioBuffer s (.exn b))).2.readPos =
        s.readPos
    ∧ (fillAudioBuffer s (.exn b)).audioBuffer = s.audioBuffer := by
  rw [fillAudioBuffer_exn s b hact hinlet hK0 hK8 hspace]
  have hin : samplesAvailable { s with audioStreamActive := false } = 0 := rfl
  have htick : renderFrameTick audioOutChannels { s with audioStreamActive := false } =
      ((List.range audioOutChannels).map (fun ch => (ch, (0 : ℚ))),
        { s with audioStreamActive := false }) := by
    rw [renderFrameTick, if_neg]
    intro hc
    exact absurd hc.1 (by simp)
  exact ⟨rfl, hin, by rw [htick], by rw [htick], rfl⟩

/-- Witness for c6_lost_no_drain at a concrete buffered state. -/
theorem c6_lost_no_drain_witness :
    (fillAudioBuffer
        { audioStreamActive := true, hasInlet := true, audioChannels := 1,
          audioSampleRate := 44100, readPos := 1, writePos := 6,
          audioBuffer := fun _ => 2 } (.exn true)).audioStreamActive = false
    ∧ samplesAvailable (fillAudioBuffer
        { audioStreamActive := true, hasInlet := true, audioChannels := 1,
          audioSampleRate := 44100, readPos := 1, writePos := 6,
          audioBuffer := fun _ => 2 } (.exn true)) = 0
    ∧ (renderFrameTick 2 (fillAudioBuffer
        { audioStreamActive := true, hasInlet := true, audioChannels := 1,
          audioSampleRate := 44100, readPos := 1, writePos := 6,
          audioBuffer := fun _ => 2 } (.exn true))).2.readPos = 1 := by
  have h := c6_lost_no_drain
    { audioStreamActive := true, hasInlet := true, audioChannels := 1,
      audioSampleRate := 44100, readPos := 1, writePos := 6,
      audioBuffer := fun _ => 2 } 2 true rfl rfl (by decide) (by decide) (by decide)
  exact ⟨h.1, h.2.1, h.2.2.2.1⟩


/-- One advertised stream as the resolver reports it
(render_lsl_audio.cpp line 109: name, nominal rate, channel count), plus
the behaviour of the external open calls for it: `openFails` models
`new lsl::stream_inlet` / `open_stream` (lines 138-139) throwing. -/
structure StreamInfo where
  name : String
  nominal_srate : ℚ
  channel_count : Nat
  openFails : Bool
  deriving DecidableEq

/-- The candidate scan loop of resolveStreams, render_lsl_audio.cpp
lines 118-159, returning the final state together with the list of
candidates for which inlet creation/open was attempted.  Control flow of
the source: a name or rate mismatch just continues the loop; an invalid
channel count hits `continue` (line 127) after `audioChannels` has
already been overwritten (line 124); once inlet creation is attempted
the loop always ends (`break`, line 153) whether the open threw (caught
at lines 150-152, session left inactive, indices not reset) or succeeded
(rate recorded, indices reset, session activated, lines 130-148). -/
def scanStreams (belaSampleRate : ℚ) :
    LslState → List StreamInfo → LslState × List StreamInfo
  | s, [] => (s, [])
  | s, info :: rest =>
    if info.name = AUDIO_STREAM_NAME then
      if |info.nominal_srate - belaSampleRate| < belaSampleRate * (1 / 1000) then
        let s1 := { s with audioChannels := info.channel_count }
        if info.channel_count = 0 ∨ MAX_CHANNELS < info.channel_count then
          scanStreams belaSampleRate s1 rest
        else
          let s2 := { s1 with audioSampleRate := info.nominal_srate }
          if info.openFails then
            (s2, [info])
          else
            ({ s2 with
                hasInlet := true
                readPos := 0
                writePos := 0
                audioStreamActive := true }, [info])
      else
        scanStreams belaSampleRate s rest
    else
      scanStreams belaSampleRate s rest

/-- resolveStreams, render_lsl_audio.cpp lines 105-161: needs a resolver,
does nothing on an empty result list, scans only while no session is
active. -/
def resolveStreams (belaSampleRate : ℚ) (resolverPresent : Bool)
    (s : LslState) (streams : List StreamInfo) : LslState × List StreamInfo :=
  if !resolverPresent then (s, [])
  else if streams.isEmpty then (s, [])
  else if s.audioStreamActive then (s, [])
  else scanStreams belaSampleRate s streams

/-- The acceptance test a candidate must pass before the open call is
attempted: name match (line 119), rate within tolerance (line 121) and a
valid channel count (line 125). -/
def acceptableStream (belaSampleRate : ℚ) (info : StreamInfo) : Bool :=
  decide (info.name = AUDIO_STREAM_NAME)
    && decide (|info.nominal_srate - belaSampleRate|
        < belaSampleRate * (1 / 1000))
    && !(decide (info.channel_count = 0 ∨ MAX_CHANNELS < info.channel_count))

/-- Over one pass the session comes up active exactly when the first
acceptable candidate opens without failure: rejected candidates are
skipped, but an open failure ends the pass with the session still
inactive. -/
theorem scanStreams_active_iff (belaSampleRate : ℚ) :
    ∀ (L : List StreamInfo) (s : LslState), s.audioStreamActive = false →
      ((scanStreams belaSampleRate s L).1.audioStreamActive = true ↔
        ∃ c, L.find? (acceptableStream belaSampleRate) = some c
          ∧ c.openFails = false) := by
  intro L
  induction L with
  | nil =>
    intro s hs
    rw [scanStreams]
    simp [hs]
  | cons info rest ih =>
    intro s hs
    rw [scanStreams]
    by_cases h1 : info.name = AUDIO_STREAM_NAME
    · rw [if_pos h1]
      by_cases h2 : |info.nominal_srate - belaSampleRate|
          < belaSampleRate * (1 / 1000)
      · rw [if_pos h2]
        by_cases h3 : info.channel_count = 0 ∨ MAX_CHANNELS < info.channel_count
        · rw [if_pos h3]
          have hacc : ¬ acceptableStream belaSampleRate info = true := by
            rw [acceptableStream, decide_eq_true h1, decide_eq_true h2,
              decide_eq_true h3]
            decide
          rw [List.find?_cons_of_neg _ hacc]
          exact ih _ hs
        · rw [if_neg h3]
          have hacc : acceptableStream belaSampleRate info = true := by
            rw [acceptableStream, decide_eq_true h1, decide_eq_true h2,
              decide_eq_false h3]
            decide
          rw [List.find?_cons_of_pos _ hacc]
          by_cases h4 : info.openFails
          · rw [if_pos h4]
            show s.audioStreamActive = true ↔ _
            rw [hs]
            constructor
            · intro hfalse
              exact absurd hfalse (by simp)
            · rintro ⟨c, hc, hcf⟩
              obtain rfl : info = c := by injection hc
              rw [h4] at hcf
              exact absurd hcf (by simp)
          · rw [if_neg h4]
            constructor
            · intro _
              exact ⟨info, rfl, by simpa using h4⟩
            · intro _
              rfl
      · rw [if_neg h2]
        have hacc : ¬ acceptableStream belaSampleRate info = true := by
          rw [acceptableStream, decide_eq_true h1, decide_eq_false h2]
          simp
        rw [List.find?_cons_of_neg _ hacc]
        exact ih _ hs
    · rw [if_neg h1]
      have hacc : ¬ acceptableStream belaSampleRate info = true := by
        rw [acceptableStream, decide_eq_false h1]
        simp
      rw [List.find?_cons_of_neg _ hacc]
      exact ih _ hs


/-- C7 counterexample: two name-matching, rate-compatible, channel-valid
candidates; the first one's open call fails.  The claim says the loop
then continues scanning, so the second (fully acceptable, open succeeds)
candidate would be opened and the session would come up; instead the
`break` after the catch ends the pass: the open is attempted only for
the first candidate and the session stays inactive. -/
theorem c7_counterexample :
    (resolveStreams 44100 true
        { audioStreamActive := false, hasInlet := false, audioChannels := 0,
          audioSampleRate := 0, readPos := 0, writePos := 0,
          audioBuffer := fun _ => 0 }
        [{ name := "audio", nominal_srate := 44100, channel_count := 2,
            openFails := true },
          { name := "audio", nominal_srate := 44100, channel_count := 2,
            openFails := false }]).1.audioStreamActive = false
    ∧ (resolveStreams 44100 true
        { audioStreamActive := false, hasInlet := false, audioChannels := 0,
          audioSampleRate := 0, readPos := 0, writePos := 0,
          audioBuffer := fun _ => 0 }
        [{ name := "audio", nominal_srate := 44100, channel_count := 2,
            openFails := true },
          { name := "audio", nominal_srate := 44100, channel_count := 2,
            openFails := false }]).2
      = [{ name := "audio", nominal_srate := 44100, channel_count := 2,
            openFails := true }]
    ∧ acceptableStream 44100
        { name := "audio", nominal_srate := 44100, channel_count := 2,
          openFails := false } = true := by
  refine ⟨?_, ?_, ?_⟩ <;>
    norm_num [resolveStreams, scanStreams, acceptableStream,
      AUDIO_STREAM_NAME, MAX_CHANNELS]

/-- C7 (amended): during one pass, a candidate rejected for its name,
rate or channel count is skipped and the scan continues with the
remaining candidates, the session staying inactive; but when the open
call of an accepted candidate fails, the pass ends (break) with the
session still inactive.  Hence the session becomes active in a pass
exactly when the first acceptable candidate of the list opens without
failure. -/
theorem c7_discovery_outcome (belaSampleRate : ℚ) (s : LslState)
    (L : List StreamInfo) (hs : s.audioStreamActive = false) :
    ((resolveStreams belaSampleRate true s L).1.audioStreamActive = true ↔
      ∃ c, L.find? (acceptableStream belaSampleRate) = some c
        ∧ c.openFails = false) := by
  rw [resolveStreams]
  rw [if_neg (by simp)]
  by_cases hL : L.isEmpty = true
  case pos =>
    rw [if_pos hL]
    rw [List.isEmpty_iff] at hL
    subst hL
    simp [hs]
  case neg =>
    rw [if_neg hL]
    rw [if_neg (by rw [hs]; simp)]
    exact scanStreams_active_iff belaSampleRate L s hs

/-- Witness for c7_discovery_outcome: one acceptable candidate whose
open succeeds activates the session. -/
theorem c7_discovery_outcome_witness :
    (resolveStreams 44100 true
        { audioStreamActive := false, hasInlet := false, audioChannels := 0,
          audioSampleRate := 0, readPos := 0, writePos := 0,
          audioBuffer := fun _ => 0 }
        [{ name := "audio", nominal_srate := 44100, channel_count := 2,
            openFails := false }]).1.audioStreamActive = true := by
  exact (c7_discovery_outcome 44100 _ _ rfl).mpr
    ⟨{ name := "audio", nominal_srate := 44100, channel_count := 2,
        openFails := false },
      by rw [List.find?_cons_of_pos _
        (by norm_num [acceptableStream, AUDIO_STREAM_NAME, MAX_CHANNELS])],
      rfl⟩


/-- Every candidate for which the open call is attempted passed the name
test and the rate-tolerance test. -/
theorem scanStreams_attempts (belaSampleRate : ℚ) :
    ∀ (L : List StreamInfo) (s : LslState) (info : StreamInfo),
      info ∈ (scanStreams belaSampleRate s L).2 →
      info.name = AUDIO_STREAM_NAME
        ∧ |info.nominal_srate - belaSampleRate|
          < belaSampleRate * (1 / 1000) := by
  intro L
  induction L with
  | nil =>
    intro s info hmem
    rw [scanStreams] at hmem
    simp at hmem
  | cons c rest ih =>
    intro s info hmem
    rw [scanStreams] at hmem
    by_cases h1 : c.name = AUDIO_STREAM_NAME
    · rw [if_pos h1] at hmem
      by_cases h2 : |c.nominal_srate - belaSampleRate|
          < belaSampleRate * (1 / 1000)
      · rw [if_pos h2] at hmem
        by_cases h3 : c.channel_count = 0 ∨ MAX_CHANNELS < c.channel_count
        · rw [if_pos h3] at hmem
          exact ih _ info hmem
        · rw [if_neg h3] at hmem
          by_cases h4 : c.openFails
          · rw [if_pos h4] at hmem
            have : info = c := by simpa using hmem
            subst this
            exact ⟨h1, h2⟩
          · rw [if_neg h4] at hmem
            have : info = c := by simpa using hmem
            subst this
            exact ⟨h1, h2⟩
      · rw [if_neg h2] at hmem
        exact ih _ info hmem
    · rw [if_neg h1] at hmem
      exact ih _ info hmem

/-- If a pass brings the session up, the recorded session rate is the
rate of the opened candidate, which is within tolerance. -/
theorem scanStreams_srate (belaSampleRate : ℚ) :
    ∀ (L : List StreamInfo) (s : LslState), s.audioStreamActive = false →
      (scanStreams belaSampleRate s L).1.audioStreamActive = true →
      |(scanStreams belaSampleRate s L).1.audioSampleRate - belaSampleRate|
        < belaSampleRate * (1 / 1000) := by
  intro L
  induction L with
  | nil =>
    intro s hs hact
    rw [scanStreams] at hact
    have : s.audioStreamActive = true := hact
    rw [hs] at this
    exact absurd this (by simp)
  | cons c rest ih =>
    intro s hs hact
    rw [scanStreams] at hact ⊢
    by_cases h1 : c.name = AUDIO_STREAM_NAME
    · rw [if_pos h1] at hact ⊢
      by_cases h2 : |c.nominal_srate - belaSampleRate|
          < belaSampleRate * (1 / 1000)
      · rw [if_pos h2] at hact ⊢
        by_cases h3 : c.channel_count = 0 ∨ MAX_CHANNELS < c.channel_count
        · rw [if_pos h3] at hact ⊢
          exact ih _ hs hact
        · rw [if_neg h3] at hact ⊢
          by_cases h4 : c.openFails
          · rw [if_pos h4] at hact
            have : s.audioStreamActive = true := hact
            rw [hs] at this
            exact absurd this (by simp)
          · rw [if_neg h4] at hact ⊢
            exact h2
      · rw [if_neg h2] at hact ⊢
        exact ih _ hs hact
    · rw [if_neg h1] at hact ⊢
      exact ih _ hs hact

/-- C8: a candidate whose nominal rate is off by at least the relative
tolerance is never opened (every attempted candidate satisfies the name
and rate tests), and a session that came up active in a pass always
records a rate within tolerance of the local clock rate. -/
theorem c8_rate_gate (belaSampleRate : ℚ) (resolverPresent : Bool)
    (s s2 : LslState) (L L2 : List StreamInfo) (info : StreamInfo)
    (hmem : info ∈ (resolveStreams belaSampleRate resolverPresent s L).2)
    (hs2 : s2.audioStreamActive = false)
    (hs2act : (resolveStreams belaSampleRate resolverPresent s2 L2).1.audioStreamActive
      = true) :
    (info.name = AUDIO_STREAM_NAME
      ∧ |info.nominal_srate - belaSampleRate| < belaSampleRate * (1 / 1000))
    ∧ |(resolveStreams belaSampleRate resolverPresent s2 L2).1.audioSampleRate
        - belaSampleRate| < belaSampleRate * (1 / 1000) := by
  constructor
  · rw [resolveStreams] at hmem
    by_cases hp : (!resolverPresent) = true
    · rw [if_pos hp] at hmem
      simp at hmem
    · rw [if_neg hp] at hmem
      by_cases hL : L.isEmpty = true
      · rw [if_pos hL] at hmem
        simp at hmem
      · rw [if_neg hL] at hmem
        by_cases ha : s.audioStreamActive = true
        · rw [if_pos ha] at hmem
          simp at hmem
        · rw [if_neg ha] at hmem
          exact scanStreams_attempts belaSampleRate L s info hmem
  · rw [resolveStreams] at hs2act ⊢
    by_cases hp : (!resolverPresent) = true
    · rw [if_pos hp] at hs2act
      have : s2.audioStreamActive = true := hs2act
      rw [hs2] at this
      exact absurd this (by simp)
    · rw [if_neg hp] at hs2act ⊢
      by_cases hL : L2.isEmpty = true
      · rw [if_pos hL] at hs2act
        have : s2.audioStreamActive = true := hs2act
        rw [hs2] at this
        exact absurd this (by simp)
      · rw [if_neg hL] at hs2act ⊢
        rw [if_neg (by rw [hs2]; simp)] at hs2act ⊢
        exact scanStreams_srate belaSampleRate L2 s2 hs2 hs2act

/-- Witness for c8_rate_gate: a within-tolerance candidate is attempted
and the resulting session rate is within tolerance. -/
theorem c8_rate_gate_witness :
    (({ name := "audio", nominal_srate := 44100, channel_count := 1,
          openFails := false } : StreamInfo).name = AUDIO_STREAM_NAME
      ∧ |({ name := "audio", nominal_srate := 44100, channel_count := 1,
            openFails := false } : StreamInfo).nominal_srate - 44100|
          < 44100 * (1 / 1000))
    ∧ |(resolveStreams 44100 true
          { audioStreamActive := false, hasInlet := false, audioChannels := 0,
            audioSampleRate := 0, readPos := 0, writePos := 0,
            audioBuffer := fun _ => 0 }
          [{ name := "audio", nominal_srate := 44100, channel_count := 1,
              openFails := false }]).1.audioSampleRate - 44100|
        < 44100 * (1 / 1000) := by
  exact c8_rate_gate 44100 true
    { audioStreamActive := false, hasInlet := false, audioChannels := 0,
      audioSampleRate := 0, readPos := 0, writePos := 0,
      audioBuffer := fun _ => 0 }
    { audioStreamActive := false, hasInlet := false, audioChannels := 0,
      audioSampleRate := 0, readPos := 0, writePos := 0,
      audioBuffer := fun _ => 0 }
    [{ name := "audio", nominal_srate := 44100, channel_count := 1,
        openFails := false }]
    [{ name := "audio", nominal_srate := 44100, channel_count := 1,
        openFails := false }]
    { name := "audio", nominal_srate := 44100, channel_count := 1,
      openFails := false }
    (by norm_num [resolveStreams, scanStreams, AUDIO_STREAM_NAME, MAX_CHANNELS])
    rfl
    (by norm_num [resolveStreams, scanStreams, AUDIO_STREAM_NAME, MAX_CHANNELS])


/-- C9: under the fill-task entry guard, every array access of a fill
invocation is in bounds: at most 512 frames are requested
(maxFramesToPull = min(512, space)), the requested sample count is at
most 512 * audioChannels ≤ 4096 and fits the 1024 * 8 scratch buffer, at
most 512 ≤ 1024 timestamps are written, every scratch read index
f * audioChannels + ch is below 1024 * 8, and every ring-buffer index
(w & bufferMask) * audioChannels + ch is below 8192 * 8, for any write
position w. -/
theorem c9_fill_bounds (s : LslState) (framesPulled f ch w : Nat)
    (hact : s.audioStreamActive = true) (hinlet : s.hasInlet = true)
    (hK0 : 0 < s.audioChannels) (hK8 : s.audioChannels ≤ MAX_CHANNELS)
    (hfp : (framesPulled : Int) ≤ fillMaxFrames s)
    (hf : f < framesPulled) (hch : ch < s.audioChannels) :
    fillMaxFrames s ≤ 512
    ∧ fillMaxFrames s * (s.audioChannels : Int) ≤ 4096
    ∧ fillMaxFrames s ≤ 1024
    ∧ pullBufferIndex f s.audioChannels ch < 1024 * MAX_CHANNELS
    ∧ ringBufferIndex w s.audioChannels ch
        < AUDIO_BUFFER_FRAMES * MAX_CHANNELS := by
  have h512 : fillMaxFrames s ≤ 512 := by
    rw [fillMaxFrames]
    exact min_le_left _ _
  have h8 : s.audioChannels ≤ 8 := by
    simpa [MAX_CHANNELS] using hK8
  have h8i : (s.audioChannels : Int) ≤ 8 := by exact_mod_cast h8
  have hprod : fillMaxFrames s * (s.audioChannels : Int) ≤ 4096 := by
    calc fillMaxFrames s * (s.audioChannels : Int)
        ≤ 512 * (s.audioChannels : Int) :=
          mul_le_mul_of_nonneg_right h512 (by positivity)
      _ ≤ 512 * 8 := by
          exact mul_le_mul_of_nonneg_left h8i (by norm_num)
      _ = 4096 := by norm_num
  have hfp512 : framesPulled ≤ 512 := by
    have h2 := hfp.trans h512
    exact_mod_cast h2
  have hpull : pullBufferIndex f s.audioChannels ch < 1024 * MAX_CHANNELS := by
    rw [pullBufferIndex]
    have hstep : f * s.audioChannels + ch < (f + 1) * s.audioChannels := by
      have : (f + 1) * s.audioChannels = f * s.audioChannels + s.audioChannels := by
        ring
      omega
    refine lt_of_lt_of_le hstep ?_
    calc (f + 1) * s.audioChannels
        ≤ 512 * s.audioChannels := Nat.mul_le_mul_right _ (by omega)
      _ ≤ 512 * 8 := Nat.mul_le_mul_left _ h8
      _ ≤ 1024 * MAX_CHANNELS := by norm_num [MAX_CHANNELS]
  have hring : ringBufferIndex w s.audioChannels ch
      < AUDIO_BUFFER_FRAMES * MAX_CHANNELS := by
    rw [ringBufferIndex]
    have hm : w &&& bufferMask ≤ 8191 := by
      have h3 := Nat.and_le_right (n := w) (m := bufferMask)
      have h4 : bufferMask = 8191 := by norm_num [bufferMask, AUDIO_BUFFER_FRAMES]
      omega
    have hstep : (w &&& bufferMask) * s.audioChannels + ch
        < ((w &&& bufferMask) + 1) * s.audioChannels := by
      have : ((w &&& bufferMask) + 1) * s.audioChannels =
          (w &&& bufferMask) * s.audioChannels + s.audioChannels := by
        ring
      omega
    refine lt_of_lt_of_le hstep ?_
    calc ((w &&& bufferMask) + 1) * s.audioChannels
        ≤ 8192 * s.audioChannels := Nat.mul_le_mul_right _ (by omega)
      _ ≤ 8192 * 8 := Nat.mul_le_mul_left _ h8
      _ ≤ AUDIO_BUFFER_FRAMES * MAX_CHANNELS := by
          norm_num [AUDIO_BUFFER_FRAMES, MAX_CHANNELS]
  exact ⟨h512, hprod, h512.trans (by norm_num), hpull, hring⟩

/-- Witness for c9_fill_bounds at a fresh 8-channel session requesting
the full 512-frame batch. -/
theorem c9_fill_bounds_witness :
    fillMaxFrames
        { audioStreamActive := true, hasInlet := true, audioChannels := 8,
          audioSampleRate := 44100, readPos := 0, writePos := 0,
          audioBuffer := fun _ => 0 } ≤ 512
    ∧ fillMaxFrames
        { audioStreamActive := true, hasInlet := true, audioChannels := 8,
          audioSampleRate := 44100, readPos := 0, writePos := 0,
          audioBuffer := fun _ => 0 } *
        (({ audioStreamActive := true, hasInlet := true, audioChannels := 8,
            audioSampleRate := 44100, readPos := 0, writePos := 0,
            audioBuffer := fun _ => 0 } : LslState).audioChannels : Int) ≤ 4096
    ∧ fillMaxFrames
        { audioStreamActive := true, hasInlet := true, audioChannels := 8,
          audioSampleRate := 44100, readPos := 0, writePos := 0,
          audioBuffer := fun _ => 0 } ≤ 1024
    ∧ pullBufferIndex 511 8 7 < 1024 * MAX_CHANNELS
    ∧ ringBufferIndex 123456 8 7 < AUDIO_BUFFER_FRAMES * MAX_CHANNELS := by
  exact c9_fill_bounds
    { audioStreamActive := true, hasInlet := true, audioChannels := 8,
      audioSampleRate := 44100, readPos := 0, writePos := 0,
      audioBuffer := fun _ => 0 } 512 511 7 123456 rfl rfl
    (by decide) (by decide) (by decide) (by decide) (by decide)

/-- C10: in a tick that pops a frame, the written channels are exactly
those below min(audioChannels, audioOutChannels) - channels at or above
audioChannels receive no write at all that tick - while in a tick with
no frame available every channel below audioOutChannels is written with
silence and every write is zero. -/
theorem c10_render_channels (s t : LslState) (audioOutChannels ch ch2 : Nat)
    (v : ℚ) (p q : Nat × ℚ)
    (hs1 : s.audioStreamActive = true) (hs2 : 0 < samplesAvailable s)
    (ht : ¬ (t.audioStreamActive = true ∧ 0 < samplesAvailable t)) :
    (p ∈ (renderFrameTick audioOutChannels s).1 →
      p.1 < min s.audioChannels audioOutChannels)
    ∧ (s.audioChannels ≤ ch → (ch, v) ∉ (renderFrameTick audioOutChannels s).1)
    ∧ (ch2 < audioOutChannels →
        (ch2, (0 : ℚ)) ∈ (renderFrameTick audioOutChannels t).1)
    ∧ (q ∈ (renderFrameTick audioOutChannels t).1 →
        q.1 < audioOutChannels ∧ q.2 = 0) := by
  have htickS : (renderFrameTick audioOutChannels s).1 =
      (List.range (min s.audioChannels audioOutChannels)).map
        (fun c => (c, s.audioBuffer
          ((s.readPos &&& bufferMask) * s.audioChannels + c))) := by
    rw [renderFrameTick, if_pos ⟨hs1, hs2⟩]
  have htickT : (renderFrameTick audioOutChannels t).1 =
      (List.range audioOutChannels).map (fun c => (c, (0 : ℚ))) := by
    rw [renderFrameTick, if_neg ht]
  refine ⟨?_, ?_, ?_, ?_⟩
  · intro hp
    rw [htickS] at hp
    obtain ⟨a, ha, rfl⟩ := List.mem_map.mp hp
    simpa using List.mem_range.mp ha
  · intro hle hmem
    rw [htickS] at hmem
    obtain ⟨a, ha, heq⟩ := List.mem_map.mp hmem
    have ha2 := List.mem_range.mp ha
    have : a = ch := congrArg Prod.fst heq
    omega
  · intro h2
    rw [htickT]
    exact List.mem_map.mpr ⟨ch2, List.mem_range.mpr h2, rfl⟩
  · intro hq
    rw [htickT] at hq
    obtain ⟨a, ha, heq⟩ := List.mem_map.mp hq
    have ha2 := List.mem_range.mp ha
    constructor
    · have : a = q.1 := congrArg Prod.fst heq
      omega
    · have : (0 : ℚ) = q.2 := congrArg Prod.snd heq
      exact this.symm

/-- Witness for c10_render_channels: a one-channel source on a
two-channel output writes only channel 0 when popping, channel 1 gets
nothing; an inactive state writes silence to both channels. -/
theorem c10_render_channels_witness :
    ((0 : Nat) < min 1 2)
    ∧ ((1, (9 : ℚ)) ∉ (renderFrameTick 2
        { audioStreamActive := true, hasInlet := true, audioChannels := 1,
          audioSampleRate := 44100, readPos := 0, writePos := 1,
          audioBuffer := fun _ => 5 }).1)
    ∧ ((0, (0 : ℚ)) ∈ (renderFrameTick 2
        { audioStreamActive := false, hasInlet := true, audioChannels := 1,
          audioSampleRate := 44100, readPos := 0, writePos := 1,
          audioBuffer := fun _ => 5 }).1)
    ∧ ((0 : Nat) < 2 ∧ (0 : ℚ) = 0) := by
  obtain ⟨a, b, c, d⟩ := c10_render_channels
    { audioStreamActive := true, hasInlet := true, audioChannels := 1,
      audioSampleRate := 44100, readPos := 0, writePos := 1,
      audioBuffer := fun _ => 5 }
    { audioStreamActive := false, hasInlet := true, audioChannels := 1,
      audioSampleRate := 44100, readPos := 0, writePos := 1,
      audioBuffer := fun _ => 5 }
    2 1 0 9 (0, 5) (0, 0) rfl (by decide) (by decide)
  exact ⟨a (by decide), b (by decide), c (by decide), d (by decide)⟩

end BelaLsl
